import Mathlib

/-!
Shallow embedding of the `libssh-rs` crate (`src/libssh-rs/src/lib.rs`) and
proofs about its session lifecycle, error translation, option marshaling,
known-hosts checking, keyboard-interactive answer submission, and key-hash
utilities.

The crate wraps the external `libssh` C engine.  Engine calls are modelled by
passing the engine's observable responses (status codes, the session-scoped
last-error slot, returned pointers rendered as `Option` values) as explicit
arguments to the embedded functions, so that each Lean definition mirrors the
Rust control flow over those responses.  The crate's `error.rs` module (the
`Error` enum) is not part of the provided sources; its shape is reconstructed
from the spec's error taxonomy and from how `lib.rs` constructs and matches
errors.
-/

/-- Modelled from the spec: the error taxonomy of the crate's `error.rs`
module (not among the provided sources).  §7 of the spec names the variants
`TryAgain`, `RequestDenied(reason)` and `Fatal(reason)`, and `lib.rs`
constructs exactly `Error::TryAgain`, `Error::RequestDenied(reason)`,
`Error::Fatal(reason)` and `Error::fatal(&str)`. -/
inductive Error where
  | TryAgain : Error
  | RequestDenied (reason : String) : Error
  | Fatal (reason : String) : Error
  deriving DecidableEq, Repr

/-- Modelled from the spec: `Error::fatal` (in the missing `error.rs`) builds
a `Fatal` value from a static string, as used by `lib.rs` and its test
(`Error::fatal("Hostname required")`). -/
def Error.fatal (s : String) : Error := Error.Fatal s

/-- `SshResult<T>` from the crate: `Result<T, Error>`. -/
abbrev SshResult (α : Type) := Except Error α

/-! ### Engine status codes (from the `libssh-rs-sys` bindings used by `lib.rs`) -/

def SSH_OK : Int := 0
def SSH_ERROR : Int := -1
def SSH_AGAIN : Int := -2

/-- `ssh_error_types_e::SSH_NO_ERROR`. -/
def SSH_NO_ERROR : Nat := 0
/-- `ssh_error_types_e::SSH_REQUEST_DENIED`. -/
def SSH_REQUEST_DENIED : Nat := 1
/-- `ssh_error_types_e::SSH_FATAL`. -/
def SSH_FATAL : Nat := 2

/-- The engine's session-scoped last-error slot, as observed by
`SessionHolder::last_error` through `ssh_get_error_code` (the `code` field)
and `ssh_get_error` (the `reason` field; `none` models a null pointer). -/
structure SessionErrorSlot where
  code : Nat
  reason : Option String
  deriving DecidableEq, Repr

/-- Embedding of `SessionHolder::last_error` (lib.rs lines 78-98): returns
`none` when the engine reports `SSH_NO_ERROR`; otherwise reads the reason
string (empty when the engine hands back a null pointer) and wraps it in
`RequestDenied` for the request-denied code and in `Fatal` for every other
code. -/
def SessionHolder.last_error (slot : SessionErrorSlot) : Option Error :=
  if slot.code = SSH_NO_ERROR then
    none
  else
    let reason := slot.reason.getD ""
    if slot.code = SSH_REQUEST_DENIED then
      some (Error.RequestDenied reason)
    else
      some (Error.Fatal reason)

/-- Embedding of `SessionHolder::basic_status` (lib.rs lines 100-110): `res`
is the raw engine completion status and `what` the generic fallback message. -/
def SessionHolder.basic_status (slot : SessionErrorSlot) (res : Int) (what : String) :
    SshResult Unit :=
  if res = SSH_OK then
    .ok ()
  else if res = SSH_AGAIN then
    .error Error.TryAgain
  else
    match SessionHolder.last_error slot with
    | some err => .error err
    | none => .error (Error.fatal what)

/-- C1: for every status translated by `basic_status`: the engine's again
code yields `TryAgain`; any other failing status yields the last-error slot's
error — `RequestDenied` with the engine's reason for the request-denied code,
`Fatal` with the engine's reason otherwise — and the generic fallback
`Fatal what` appears only when the slot holds no error. -/
theorem basic_status_prefers_engine_error (slot : SessionErrorSlot) (res : Int) (what : String) :
    (res = SSH_AGAIN → SessionHolder.basic_status slot res what = .error Error.TryAgain) ∧
    (res ≠ SSH_OK → res ≠ SSH_AGAIN →
      ((slot.code ≠ SSH_NO_ERROR →
        SessionHolder.basic_status slot res what =
          .error (if slot.code = SSH_REQUEST_DENIED
                  then Error.RequestDenied (slot.reason.getD "")
                  else Error.Fatal (slot.reason.getD ""))) ∧
       (slot.code = SSH_NO_ERROR →
        SessionHolder.basic_status slot res what = .error (Error.fatal what)))) := by
  refine ⟨fun hAgain => ?_, fun hOk hAgain => ⟨fun hCode => ?_, fun hCode => ?_⟩⟩
  · subst hAgain
    simp [SessionHolder.basic_status, SSH_OK, SSH_AGAIN]
  · simp only [SessionHolder.basic_status, SessionHolder.last_error, if_neg hOk, if_neg hAgain,
      if_neg hCode]
    by_cases hDenied : slot.code = SSH_REQUEST_DENIED <;>
      simp [hDenied]
  · simp [SessionHolder.basic_status, SessionHolder.last_error, if_neg hOk, if_neg hAgain,
      hCode]

/-- Witness for C1 at a concrete failing status with a request-denied slot. -/
theorem basic_status_prefers_engine_error_witness :
    SessionHolder.basic_status ⟨1, some "denied by peer"⟩ (-1) "fallback" =
      .error (Error.RequestDenied "denied by peer") := by
  have h := (basic_status_prefers_engine_error ⟨1, some "denied by peer"⟩ (-1) "fallback").2
    (by decide) (by decide)
  have h' := h.1 (by decide)
  simpa using h'

/-! ### Engine lifecycle guard (`initialize`, lib.rs lines 43-55)

The Rust code keeps two process-wide statics: `INIT: Once` and
`LIB: Option<LibraryState>`.  The `Once` fires the closure on the first call
only; the closure stores `LibraryState::new()` into `LIB`.  We model the pair
of statics as an explicit `ProcessInitState` threaded through calls, and the
outcome of the underlying `ssh_init` engine call as an `Int` argument that is
consulted only when the closure actually runs. -/

/-- Embedding of `LibraryState::new` (lib.rs lines 28-35): `none` when
`ssh_init` returns anything but `SSH_OK`, `some` of the (fieldless) library
state otherwise. -/
def LibraryState.new (ssh_init_res : Int) : Option Unit :=
  if ssh_init_res ≠ SSH_OK then none else some ()

/-- The process-wide statics `INIT: Once` (has it fired?) and
`LIB: Option<LibraryState>`. -/
structure ProcessInitState where
  initDone : Bool
  lib : Option Unit
  deriving DecidableEq, Repr

/-- The state of the statics at process start: the `Once` has not fired and
`LIB` is `None`. -/
def ProcessInitState.start : ProcessInitState := ⟨false, none⟩

/-- Embedding of the crate's `initialize` function (lib.rs lines 46-55),
named `init_library` here because `initialize` is reserved in Lean.  The
`Once::call_once` body runs only when the `Once` has not fired yet; the
result is `Err(Error::fatal("ssh_init failed"))` exactly when `LIB` is `None`
afterwards.  Returns the updated statics and the call's result. -/
def init_library (st : ProcessInitState) (ssh_init_res : Int) :
    ProcessInitState × SshResult Unit :=
  let st' :=
    if st.initDone then st
    else { initDone := true, lib := LibraryState.new ssh_init_res }
  match st'.lib with
  | none => (st', .error (Error.fatal "ssh_init failed"))
  | some _ => (st', .ok ())

/-- C2: initialization runs at most once per process.  Starting from the
process-start statics, the first call samples the engine's `ssh_init` result
`r`; every later call (with an arbitrary fresh engine result `r'`) leaves the
statics unchanged — setup is never retried — and returns the fatal
`"ssh_init failed"` error when the recorded first setup failed, and success
when it succeeded. -/
theorem init_library_at_most_once (r r' : Int) :
    (init_library (init_library ProcessInitState.start r).1 r').1 =
      (init_library ProcessInitState.start r).1 ∧
    (r ≠ SSH_OK →
      (init_library ProcessInitState.start r).2 = .error (Error.fatal "ssh_init failed") ∧
      (init_library (init_library ProcessInitState.start r).1 r').2 =
        .error (Error.fatal "ssh_init failed")) ∧
    (r = SSH_OK →
      (init_library ProcessInitState.start r).2 = .ok () ∧
      (init_library (init_library ProcessInitState.start r).1 r').2 = .ok ()) := by
  by_cases h : r = SSH_OK
  · subst h
    refine ⟨?_, fun hne => absurd rfl hne, fun _ => ⟨?_, ?_⟩⟩ <;>
      simp [init_library, ProcessInitState.start, LibraryState.new]
  · refine ⟨?_, fun _ => ⟨?_, ?_⟩, fun he => absurd he h⟩ <;>
      simp [init_library, ProcessInitState.start, LibraryState.new, h]

/-- Witness for C2 with a failing first `ssh_init` (`r = -1`) and a would-be
succeeding retry (`r' = 0`): the failure is permanent. -/
theorem init_library_at_most_once_witness :
    (init_library (init_library ProcessInitState.start (-1)).1 0).2 =
      .error (Error.fatal "ssh_init failed") :=
  ((init_library_at_most_once (-1) 0).2.1 (by decide)).2

/-! ### Known-hosts check (`Session::is_known_server`, lib.rs lines 184-199) -/

/-- `ssh_known_hosts_e` constants from the engine bindings. -/
def SSH_KNOWN_HOSTS_ERROR : Int := -2
def SSH_KNOWN_HOSTS_NOT_FOUND : Int := -1
def SSH_KNOWN_HOSTS_UNKNOWN : Int := 0
def SSH_KNOWN_HOSTS_OK : Int := 1
def SSH_KNOWN_HOSTS_CHANGED : Int := 2
def SSH_KNOWN_HOSTS_OTHER : Int := 3

/-- The `KnownHosts` enum of lib.rs (lines 884-895). -/
inductive KnownHosts where
  | NotFound : KnownHosts
  | Unknown : KnownHosts
  | Ok : KnownHosts
  | Changed : KnownHosts
  | Other : KnownHosts
  deriving DecidableEq, Repr

/-- Embedding of `Session::is_known_server` (lib.rs lines 184-199): matches
the engine's `ssh_session_is_known_server` result against the five known
statuses, and treats `SSH_KNOWN_HOSTS_ERROR` together with every other value
through the last-error slot with a generic fatal fallback. -/
def Session.is_known_server (slot : SessionErrorSlot) (engineRes : Int) :
    SshResult KnownHosts :=
  if engineRes = SSH_KNOWN_HOSTS_NOT_FOUND then .ok KnownHosts.NotFound
  else if engineRes = SSH_KNOWN_HOSTS_UNKNOWN then .ok KnownHosts.Unknown
  else if engineRes = SSH_KNOWN_HOSTS_OK then .ok KnownHosts.Ok
  else if engineRes = SSH_KNOWN_HOSTS_CHANGED then .ok KnownHosts.Changed
  else if engineRes = SSH_KNOWN_HOSTS_OTHER then .ok KnownHosts.Other
  else
    match SessionHolder.last_error slot with
    | some err => .error err
    | none => .error (Error.fatal "unknown error in ssh_session_is_known_server")

/-- C3: the known-host check maps each of the five enumerated engine statuses
to the corresponding outcome, and every other engine result to an error —
the last-error slot's error when present, the generic fatal otherwise.  As a
total function into `SshResult KnownHosts` it never panics nor produces an
outcome outside the five-constructor `KnownHosts` type. -/
theorem is_known_server_cases (slot : SessionErrorSlot) (engineRes : Int) :
    (engineRes = SSH_KNOWN_HOSTS_NOT_FOUND →
      Session.is_known_server slot engineRes = .ok KnownHosts.NotFound) ∧
    (engineRes = SSH_KNOWN_HOSTS_UNKNOWN →
      Session.is_known_server slot engineRes = .ok KnownHosts.Unknown) ∧
    (engineRes = SSH_KNOWN_HOSTS_OK →
      Session.is_known_server slot engineRes = .ok KnownHosts.Ok) ∧
    (engineRes = SSH_KNOWN_HOSTS_CHANGED →
      Session.is_known_server slot engineRes = .ok KnownHosts.Changed) ∧
    (engineRes = SSH_KNOWN_HOSTS_OTHER →
      Session.is_known_server slot engineRes = .ok KnownHosts.Other) ∧
    (engineRes ≠ SSH_KNOWN_HOSTS_NOT_FOUND → engineRes ≠ SSH_KNOWN_HOSTS_UNKNOWN →
     engineRes ≠ SSH_KNOWN_HOSTS_OK → engineRes ≠ SSH_KNOWN_HOSTS_CHANGED →
     engineRes ≠ SSH_KNOWN_HOSTS_OTHER →
      Session.is_known_server slot engineRes =
        .error ((SessionHolder.last_error slot).getD
          (Error.fatal "unknown error in ssh_session_is_known_server"))) := by
  refine ⟨fun h => ?_, fun h => ?_, fun h => ?_, fun h => ?_, fun h => ?_,
    fun h1 h2 h3 h4 h5 => ?_⟩
  · subst h; simp [Session.is_known_server]
  · subst h; simp [Session.is_known_server, SSH_KNOWN_HOSTS_UNKNOWN,
      SSH_KNOWN_HOSTS_NOT_FOUND]
  · subst h; simp [Session.is_known_server, SSH_KNOWN_HOSTS_OK,
      SSH_KNOWN_HOSTS_NOT_FOUND, SSH_KNOWN_HOSTS_UNKNOWN]
  · subst h; simp [Session.is_known_server, SSH_KNOWN_HOSTS_CHANGED,
      SSH_KNOWN_HOSTS_NOT_FOUND, SSH_KNOWN_HOSTS_UNKNOWN, SSH_KNOWN_HOSTS_OK]
  · subst h; simp [Session.is_known_server, SSH_KNOWN_HOSTS_OTHER,
      SSH_KNOWN_HOSTS_NOT_FOUND, SSH_KNOWN_HOSTS_UNKNOWN, SSH_KNOWN_HOSTS_OK,
      SSH_KNOWN_HOSTS_CHANGED]
  · simp only [Session.is_known_server, if_neg h1, if_neg h2, if_neg h3, if_neg h4, if_neg h5]
    cases hslot : SessionHolder.last_error slot <;> simp [hslot]

/-- Witness for C3 at the engine's error status with an empty error slot:
the generic fatal fallback is produced. -/
theorem is_known_server_cases_witness :
    Session.is_known_server ⟨0, none⟩ (-2) =
      .error (Error.fatal "unknown error in ssh_session_is_known_server") := by
  have h := (is_known_server_cases ⟨0, none⟩ (-2)).2.2.2.2.2
    (by decide) (by decide) (by decide) (by decide) (by decide)
  simpa [SessionHolder.last_error] using h

/-! ### C-string marshaling helpers (lib.rs lines 980-993)

A Rust `CString` is a string free of embedded NUL bytes; we model a
successfully built `CString` simply by the `String` it wraps, and
`CString::new`'s failure on an embedded NUL by `Except Unit String` (the
error side standing for `NulError`). -/

/-- Whether the string contains an embedded NUL terminator character. -/
def hasNul (s : String) : Bool := s.data.contains (Char.ofNat 0)

/-- Model of Rust's `CString::new`: fails (with a `NulError`, here `()`)
exactly when the input holds an embedded NUL byte. -/
def CString.new (s : String) : Except Unit String :=
  if hasNul s then .error () else .ok s

/-- Modelled from the spec: the crate's `error.rs` (not among the provided
sources) converts the `NulError` raised by `CString::new` — via the `?`
operator in `lib.rs` — into the spec's "construction-time `Fatal` for
malformed input (a string containing an embedded terminator character)". -/
def nulError : Error := Error.Fatal "string contains an embedded NUL terminator"

/-- Embedding of `opt_str_to_cstring` / `opt_string_to_cstring` (lib.rs
lines 980-986): both call `CString::new(s).ok()`, so a string with an
embedded NUL collapses to `None` — the same value that represents "pass the
engine a null pointer / use the default". -/
def opt_str_to_cstring (s : Option String) : Option String :=
  s.bind fun s' => (CString.new s').toOption

/-! ### Auth-method listing (`Session::userauth_list`, lib.rs lines 467-475) -/

/-- The `AuthMethods` bitflags (lib.rs lines 744-760), kept as the raw `u32`
bit pattern. -/
structure AuthMethods where
  bits : Nat
  deriving DecidableEq, Repr

/-- `AuthMethods::from_bits_unchecked`: keeps the `u32` bit pattern as-is. -/
def AuthMethods.from_bits_unchecked (n : Nat) : AuthMethods := ⟨n % 2 ^ 32⟩

/-- Embedding of `Session::userauth_list` (lib.rs lines 467-475): marshals
the username (possibly to null) and wraps the engine's raw
`ssh_userauth_list` return value — a C `int`, cast `as u32` — directly in
`Ok`; there is no error path. -/
def Session.userauth_list (engineBits : Int) (username : Option String) :
    SshResult AuthMethods :=
  let _ := opt_str_to_cstring username
  .ok (AuthMethods.from_bits_unchecked (engineBits % 2 ^ 32).toNat)

/-- C4: for every engine-reported method set and every username argument,
`userauth_list` returns `Ok` of the engine's (possibly empty) method bits and
never any error — in particular it cannot fatally error before a
`userauth_none` call. -/
theorem userauth_list_never_errors (engineBits : Int) (username : Option String) :
    Session.userauth_list engineBits username =
      .ok (AuthMethods.from_bits_unchecked (engineBits % 2 ^ 32).toNat) ∧
    ∀ e : Error, Session.userauth_list engineBits username ≠ .error e := by
  exact ⟨rfl, fun e h => by simp [Session.userauth_list] at h⟩

/-! ### Forward accept (`Session::accept_forward`, lib.rs lines 652-671)

The engine's `ssh_channel_accept_forward` returns a channel pointer (null on
timeout) and writes the destination port through an out-parameter.  We model
the pointer by `Option Nat` (a channel handle) and the out-parameter by a
`Nat` whose `as u16` cast is `% 2 ^ 16`. -/

/-- Embedding of `Session::accept_forward` (lib.rs lines 652-671): a null
channel consults the last-error slot and otherwise signals `TryAgain`; a
non-null channel is paired with the destination port cast to `u16`. -/
def Session.accept_forward (slot : SessionErrorSlot) (engineChan : Option Nat) (port : Nat) :
    SshResult (Nat × Nat) :=
  match engineChan with
  | none =>
    match SessionHolder.last_error slot with
    | some err => .error err
    | none => .error Error.TryAgain
  | some chan => .ok (port % 2 ^ 16, chan)

/-- C5: when the bounded wait elapses with no inbound connection — the
engine returns no channel and its error slot is empty — `accept_forward`
yields the `TryAgain` retry signal, not a `Fatal` error; and an `Ok` result,
carrying the destination port, arises only when the engine produced the
channel it carries. -/
theorem accept_forward_timeout_try_again (slot : SessionErrorSlot)
    (engineChan : Option Nat) (port : Nat) :
    (engineChan = none → slot.code = SSH_NO_ERROR →
      Session.accept_forward slot engineChan port = .error Error.TryAgain ∧
      ∀ reason, Session.accept_forward slot engineChan port ≠ .error (Error.Fatal reason)) ∧
    (∀ p c, Session.accept_forward slot engineChan port = .ok (p, c) →
      engineChan = some c ∧ p = port % 2 ^ 16) := by
  constructor
  · intro hChan hCode
    subst hChan
    have : SessionHolder.last_error slot = none := by
      simp [SessionHolder.last_error, hCode]
    refine ⟨?_, ?_⟩
    · simp [Session.accept_forward, this]
    · intro reason h
      simp [Session.accept_forward, this] at h
  · intro p c h
    cases engineChan with
    | none =>
      exfalso
      cases hslot : SessionHolder.last_error slot <;>
        simp [Session.accept_forward, hslot] at h
    | some chan =>
      simp only [Session.accept_forward, Except.ok.injEq, Prod.mk.injEq] at h
      exact ⟨by rw [h.2], h.1.symm⟩

/-- Witness for C5: a timed-out accept (null channel, clean error slot)
returns `TryAgain`. -/
theorem accept_forward_timeout_try_again_witness :
    Session.accept_forward ⟨0, none⟩ none 8080 = .error Error.TryAgain :=
  ((accept_forward_timeout_try_again ⟨0, none⟩ none 8080).1 rfl rfl).1

/-! ### Session creation and connect (lib.rs lines 132-144, 175-178, 701-705) -/

/-- The engine-side state of one session, as far as the embedded queries
observe it: the `ssh_is_connected` flag and the last-error slot. -/
structure SessionState where
  connected : Bool
  errorSlot : SessionErrorSlot
  deriving DecidableEq, Repr

/-- Modelled from the spec: the state of the session object the engine's
`ssh_new` hands back (the engine is an external collaborator, not part of
the provided sources).  Per the spec, "a freshly created session reports
not-connected and has no pending error", which the crate's own test `init`
(lib.rs lines 999-1005) asserts via `is_connected` and `last_error`. -/
def engine_ssh_new_state : SessionState := ⟨false, ⟨SSH_NO_ERROR, none⟩⟩

/-- Embedding of `Session::new` (lib.rs lines 134-144): runs the one-time
library guard, then asks the engine for a session object; `ssh_new_null`
models `ssh_new` returning a null pointer. -/
def Session.new (st : ProcessInitState) (ssh_init_res : Int) (ssh_new_null : Bool) :
    ProcessInitState × SshResult SessionState :=
  match init_library st ssh_init_res with
  | (st', .error e) => (st', .error e)
  | (st', .ok ()) =>
    if ssh_new_null then (st', .error (Error.fatal "ssh_new failed"))
    else (st', .ok engine_ssh_new_state)

/-- Embedding of `Session::is_connected` (lib.rs lines 703-705):
`ssh_is_connected(...) != 0`. -/
def Session.is_connected (s : SessionState) : Bool := s.connected

/-- Embedding of `Session::last_error` (lib.rs lines 217-219): delegates to
`SessionHolder::last_error` on the session's slot. -/
def Session.last_error (s : SessionState) : Option Error :=
  SessionHolder.last_error s.errorSlot

/-- C7: whenever `Session::new` returns `Ok`, the session it returns is not
connected and its last-error query reports no error. -/
theorem session_new_fresh_state (st st' : ProcessInitState) (r : Int) (nullNew : Bool)
    (sess : SessionState) (h : Session.new st r nullNew = (st', .ok sess)) :
    Session.is_connected sess = false ∧ Session.last_error sess = none := by
  have hs : sess = engine_ssh_new_state := by
    unfold Session.new at h
    cases hinit : init_library st r with
    | mk st1 res =>
      rw [hinit] at h
      cases res with
      | error e => simp at h
      | ok u =>
        cases u
        by_cases hn : nullNew = true
        · simp [hn] at h
        · simp [eq_false_of_ne_true hn] at h
          exact h.2.symm
  subst hs
  exact ⟨rfl, rfl⟩

/-- Witness for C7: a concrete successful creation (successful `ssh_init`,
non-null `ssh_new`) yields a not-connected, error-free session. -/
theorem session_new_fresh_state_witness :
    Session.is_connected engine_ssh_new_state = false ∧
    Session.last_error engine_ssh_new_state = none :=
  session_new_fresh_state ProcessInitState.start ⟨true, some ()⟩ 0 false
    engine_ssh_new_state rfl

/-- Embedding of `Session::connect` (lib.rs lines 175-178): passes the
engine's `ssh_connect` status to `basic_status` with the generic message
`"ssh_connect failed"`. -/
def Session.connect (slot : SessionErrorSlot) (engineRes : Int) : SshResult Unit :=
  SessionHolder.basic_status slot engineRes "ssh_connect failed"

/-- Modelled from the spec: the engine's `ssh_connect` response on a session
whose hostname option was never configured (the engine is an external
collaborator, not part of the provided sources).  The spec says connect
"fails fatally ... (engine surfaces the specific cause, e.g. 'Hostname
required')", and the crate's test `init` (lib.rs line 1004) asserts the
result equals `Err(Error::fatal("Hostname required"))`: a failing status
with the fatal reason "Hostname required" in the last-error slot. -/
def engine_connect_missing_hostname : Int × SessionErrorSlot :=
  (SSH_ERROR, ⟨SSH_FATAL, some "Hostname required"⟩)

/-- C6: connecting a session with no configured hostname returns the `Fatal`
error whose reason names the missing hostname requirement — not success, not
`TryAgain`, not the generic fallback. -/
theorem connect_without_hostname_fatal :
    Session.connect engine_connect_missing_hostname.2 engine_connect_missing_hostname.1 =
      .error (Error.fatal "Hostname required") := by
  rfl

/-! ### Option configuration (`Session::set_option`, lib.rs lines 266-364)

For the string-marshaling claims the observable of interest is the value
argument that reaches `ssh_options_set` — a C string, or a null pointer for
"use the engine default" — or the error raised before any engine call. -/

/-- The `LogLevel` enum of lib.rs (lines 829-835). -/
inductive LogLevel where
  | NoLogging : LogLevel
  | Warning : LogLevel
  | Protocol : LogLevel
  | Packet : LogLevel
  | Functions : LogLevel
  deriving DecidableEq, Repr

/-- The `SSH_LOG_*` verbosity constant each `LogLevel` maps to in
`set_option` (lib.rs lines 269-275). -/
def LogLevel.to_verbosity : LogLevel → Int
  | .NoLogging => 0
  | .Warning => 1
  | .Protocol => 2
  | .Packet => 3
  | .Functions => 4

/-- The `SshOption` enum of lib.rs (lines 840-879); `Socket` carries the raw
descriptor, `Timeout` the duration in microseconds. -/
inductive SshOption where
  | Hostname (name : String) : SshOption
  | Port (port : Nat) : SshOption
  | LogLevel (level : LogLevel) : SshOption
  | Socket (socket : Int) : SshOption
  | BindAddress (name : String) : SshOption
  | User (name : Option String) : SshOption
  | SshDir (name : Option String) : SshOption
  | KnownHosts (name : Option String) : SshOption
  | AddIdentity (name : String) : SshOption
  | Timeout (micros : Nat) : SshOption
  deriving DecidableEq, Repr

/-- The value argument handed to `ssh_options_set`: a C string, a null
pointer (the engine-default marker), or a scalar. -/
inductive EngineArg where
  | strArg (s : String) : EngineArg
  | nullArg : EngineArg
  | intArg (n : Int) : EngineArg
  deriving DecidableEq, Repr

/-- Embedding of the marshaling performed by `Session::set_option` (lib.rs
lines 266-364) up to the engine call: for each option, the value argument
passed to `ssh_options_set`, or the error raised before the engine is ever
called.  `Hostname`, `BindAddress` and `AddIdentity` go through
`CString::new(name)?` (an embedded NUL raises the construction error);
`User`, `SshDir` and `KnownHosts` go through `opt_string_to_cstring`, which
has the same body as `opt_str_to_cstring` (lib.rs lines 980-986) and maps an
embedded-NUL string to `None`, i.e. a null pointer. -/
def Session.set_option_marshaled : SshOption → SshResult EngineArg
  | .LogLevel level => .ok (.intArg (LogLevel.to_verbosity level))
  | .Hostname name =>
    match CString.new name with
    | .error _ => .error nulError
    | .ok c => .ok (.strArg c)
  | .BindAddress name =>
    match CString.new name with
    | .error _ => .error nulError
    | .ok c => .ok (.strArg c)
  | .AddIdentity name =>
    match CString.new name with
    | .error _ => .error nulError
    | .ok c => .ok (.strArg c)
  | .User name =>
    .ok (match opt_str_to_cstring name with
         | some c => .strArg c
         | none => .nullArg)
  | .SshDir name =>
    .ok (match opt_str_to_cstring name with
         | some c => .strArg c
         | none => .nullArg)
  | .KnownHosts name =>
    .ok (match opt_str_to_cstring name with
         | some c => .strArg c
         | none => .nullArg)
  | .Port port => .ok (.intArg port)
  | .Socket socket => .ok (.intArg socket)
  | .Timeout micros => .ok (.intArg micros)

/-- C8 counterexample: the username option with an embedded NUL does not
surface any error — `set_option` silently passes the engine a null pointer,
which restores the engine's default username. -/
theorem set_option_embedded_nul_counterexample :
    hasNul "a\x00b" = true ∧
    Session.set_option_marshaled (SshOption.User (some "a\x00b")) = .ok EngineArg.nullArg := by
  constructor
  · decide
  · rfl

/-! ### Key hashing (`SshKey`, lib.rs lines 778-824)

The digest computation itself lives in the external engine
(`ssh_get_publickey_hash`, `ssh_get_hexa`); the crate copies the engine's
`len` bytes out and renders the hex string the engine returns.  The engine
side is modelled from the spec below. -/

/-- The `PublicKeyHashType` enum of lib.rs (lines 899-903). -/
inductive PublicKeyHashType where
  | Sha1 : PublicKeyHashType
  | Md5 : PublicKeyHashType
  | Sha256 : PublicKeyHashType
  deriving DecidableEq, Repr

/-- Modelled from the spec: the digest size of each supported algorithm —
"a fixed-length byte sequence matching the algorithm's known digest size"
(SHA-1: 20 bytes, MD5: 16 bytes, SHA-256: 32 bytes). -/
def PublicKeyHashType.digest_length : PublicKeyHashType → Nat
  | .Sha1 => 20
  | .Md5 => 16
  | .Sha256 => 32

/-- Modelled from the spec: the byte sequence the engine's
`ssh_get_publickey_hash` (external, not among the provided sources) produces
for a key — a digest of exactly the algorithm's fixed length.  The
cryptographic content is outside the spec's scope ("Excluded from scope:
cryptography"); only the length is specified, so the bytes are modelled as a
key-dependent constant sequence of that length. -/
def engine_publickey_hash (key : Nat) (t : PublicKeyHashType) : List Nat :=
  List.replicate t.digest_length (key % 256)

/-- Embedding of `SshKey::get_public_key_hash` (lib.rs lines 778-807):
`engineOk = false` models a nonzero engine status or a null byte pointer;
otherwise the engine's `len` bytes are copied out and returned. -/
def SshKey.get_public_key_hash (engineOk : Bool) (key : Nat) (t : PublicKeyHashType) :
    SshResult (List Nat) :=
  if engineOk then .ok (engine_publickey_hash key t)
  else .error (Error.fatal "failed to get public key hash")

/-- The lowercase hex digit for a nibble: `0`-`9` then `a`-`f`. -/
def hexDigitChar (n : Nat) : Char :=
  if n < 10 then Char.ofNat (48 + n) else Char.ofNat (87 + n)

/-- Modelled from the spec: the engine's `ssh_get_hexa` (external, not among
the provided sources) as the spec describes the hex rendering — "exactly
twice that length, lowercase, no separators": two lowercase hex digits per
byte, concatenated. -/
def ssh_get_hexa (bytes : List Nat) : String :=
  String.mk (bytes.flatMap fun b => [hexDigitChar (b / 16 % 16), hexDigitChar (b % 16)])

/-- Embedding of `SshKey::get_public_key_hash_hexa` (lib.rs lines 810-824):
re-derives the raw bytes via `get_public_key_hash`, then asks the engine for
the hex rendering (`engineHexaOk = false` models a null return from
`ssh_get_hexa`). -/
def SshKey.get_public_key_hash_hexa (engineOk engineHexaOk : Bool) (key : Nat)
    (t : PublicKeyHashType) : SshResult String :=
  match SshKey.get_public_key_hash engineOk key t with
  | .error e => .error e
  | .ok bytes =>
    if engineHexaOk then .ok (ssh_get_hexa bytes)
    else .error (Error.fatal "failed to allocate bytes for hexa representation")

/-- Whether a character is a lowercase hexadecimal digit (`0`-`9`, `a`-`f`). -/
def isLowerHexDigit (c : Char) : Bool :=
  (48 ≤ c.toNat && c.toNat ≤ 57) || (97 ≤ c.toNat && c.toNat ≤ 102)

/-- Every nibble renders to a lowercase hex digit. -/
theorem hexDigitChar_lower_hex (n : Nat) : isLowerHexDigit (hexDigitChar (n % 16)) = true := by
  have h : n % 16 < 16 := Nat.mod_lt _ (by decide)
  set m := n % 16 with hm
  clear_value m
  interval_cases m <;> decide

/-- C9: the raw hash of each supported algorithm has exactly the algorithm's
digest length — 20, 16 and 32 bytes for SHA-1, MD5 and SHA-256 — and the hex
rendering of the same key and algorithm is exactly twice that many
characters, every one of them a lowercase hexadecimal digit (no
separators). -/
theorem public_key_hash_lengths (key : Nat) (t : PublicKeyHashType) :
    SshKey.get_public_key_hash true key t = .ok (engine_publickey_hash key t) ∧
    (engine_publickey_hash key t).length = t.digest_length ∧
    (PublicKeyHashType.digest_length PublicKeyHashType.Sha1 = 20 ∧
     PublicKeyHashType.digest_length PublicKeyHashType.Md5 = 16 ∧
     PublicKeyHashType.digest_length PublicKeyHashType.Sha256 = 32) ∧
    SshKey.get_public_key_hash_hexa true true key t =
      .ok (ssh_get_hexa (engine_publickey_hash key t)) ∧
    (ssh_get_hexa (engine_publickey_hash key t)).length = 2 * t.digest_length ∧
    (ssh_get_hexa (engine_publickey_hash key t)).data.all isLowerHexDigit = true := by
  refine ⟨rfl, ?_, ⟨rfl, rfl, rfl⟩, rfl, ?_, ?_⟩
  · simp [engine_publickey_hash]
  · simp only [ssh_get_hexa, String.length, engine_publickey_hash]
    rw [List.length_flatMap]
    simp [Function.comp, Nat.mul_comm]
  · simp only [ssh_get_hexa, engine_publickey_hash, List.all_eq_true]
    intro c hc
    rw [List.mem_flatMap] at hc
    obtain ⟨b, hb, hcb⟩ := hc
    rw [List.eq_of_mem_replicate hb] at hcb
    simp only [List.mem_cons, List.mem_singleton, List.not_mem_nil, or_false] at hcb
    rcases hcb with h | h <;>
      exact h ▸ hexDigitChar_lower_hex _

/-! ### Keyboard-interactive answers
(`Session::userauth_keyboard_interactive_set_answers`, lib.rs lines 525-541)

The loop iterates `answers.iter().enumerate()`: for each `(idx, answer)` it
builds a `CString` (the `?` aborts on an embedded NUL) and calls the engine's
`ssh_userauth_kbdint_setanswer` with `idx as u32` — the `usize` counter is
wrapped to `u32` at the FFI boundary, modelled as `% 2 ^ 32`; a nonzero
engine status aborts with the last-error slot's error or the generic fatal.
The engine oracle is modelled as a function from the `u32` index and the
answer to the call's status; the embedding returns the list of
`(u32 index, answer)` pairs the engine accepted — the answers that remain
set, keyed as the engine saw them — together with the operation's result. -/

/-- The loop body of `userauth_keyboard_interactive_set_answers`, with the
running index made explicit (the Rust `enumerate` counter); the engine
receives `idx as u32`, i.e. `idx % 2 ^ 32`. -/
def set_answers_go (slot : SessionErrorSlot) (engineAccept : Nat → String → Int) :
    Nat → List String → List (Nat × String) × SshResult Unit
  | _, [] => ([], .ok ())
  | idx, a :: rest =>
    match CString.new a with
    | .error _ => ([], .error nulError)
    | .ok c =>
      if engineAccept (idx % 2 ^ 32) c ≠ 0 then
        ([], match SessionHolder.last_error slot with
             | some e => .error e
             | none => .error (Error.fatal "error setting answer"))
      else
        let next := set_answers_go slot engineAccept (idx + 1) rest
        ((idx % 2 ^ 32, c) :: next.1, next.2)

/-- Embedding of `Session::userauth_keyboard_interactive_set_answers`
(lib.rs lines 525-541): the loop starting at index 0. -/
def Session.userauth_keyboard_interactive_set_answers (slot : SessionErrorSlot)
    (engineAccept : Nat → String → Int) (answers : List String) :
    List (Nat × String) × SshResult Unit :=
  set_answers_go slot engineAccept 0 answers

/-- One accepted iteration of the loop: a NUL-free answer the engine accepts
is recorded under its `u32`-wrapped index and the loop continues at the next
counter value. -/
theorem set_answers_go_cons_accepted (slot : SessionErrorSlot)
    (engineAccept : Nat → String → Int) (i : Nat) (a : String) (rest : List String)
    (hNul : hasNul a = false) (hAcc : engineAccept (i % 2 ^ 32) a = 0) :
    set_answers_go slot engineAccept i (a :: rest) =
      ((i % 2 ^ 32, a) :: (set_answers_go slot engineAccept (i + 1) rest).1,
       (set_answers_go slot engineAccept (i + 1) rest).2) := by
  have hAcc' := hAcc
  norm_num at hAcc'
  simp [set_answers_go, CString.new, hNul, hAcc']

/-- Every index appearing in `List.enumFrom i l` is below `i + l.length`. -/
theorem enumFrom_fst_lt {α : Type} (l : List α) (i : Nat) (p : Nat × α)
    (hp : p ∈ List.enumFrom i l) : p.1 < i + l.length := by
  induction l generalizing i with
  | nil => cases hp
  | cons a t ih =>
    simp only [List.enumFrom, List.mem_cons] at hp
    simp only [List.length_cons]
    rcases hp with h | h
    · subst h
      omega
    · have := ih (i + 1) h
      omega

/-- The loop sets every answer positionally when the engine accepts all of
them and none holds an embedded NUL: the engine receives the `u32`-wrapped
enumeration indices in order. -/
theorem set_answers_go_all_accepted (slot : SessionErrorSlot)
    (engineAccept : Nat → String → Int) (answers : List String) (i : Nat)
    (h : ∀ p ∈ List.enumFrom i answers,
      hasNul p.2 = false ∧ engineAccept (p.1 % 2 ^ 32) p.2 = 0) :
    set_answers_go slot engineAccept i answers =
      ((List.enumFrom i answers).map (fun p => (p.1 % 2 ^ 32, p.2)), .ok ()) := by
  induction answers generalizing i with
  | nil => rfl
  | cons a rest ih =>
    have ha := h (i, a) (by simp [List.enumFrom])
    have hrest : ∀ p ∈ List.enumFrom (i + 1) rest,
        hasNul p.2 = false ∧ engineAccept (p.1 % 2 ^ 32) p.2 = 0 := by
      intro p hp
      exact h p (by simp [List.enumFrom, hp])
    rw [set_answers_go_cons_accepted slot engineAccept i a rest ha.1 ha.2,
      ih (i + 1) hrest]
    simp [List.enumFrom]

/-- When the engine accepts the answers of `pre` (all NUL-free) and rejects
`bad` at the next index, the loop stops there: exactly the answers of `pre`
remain set and the slot-derived error is returned. -/
theorem set_answers_go_rejected (slot : SessionErrorSlot)
    (engineAccept : Nat → String → Int) (pre : List String) (bad : String)
    (rest : List String) (i : Nat)
    (hpre : ∀ p ∈ List.enumFrom i pre,
      hasNul p.2 = false ∧ engineAccept (p.1 % 2 ^ 32) p.2 = 0)
    (hbadNul : hasNul bad = false)
    (hbad : engineAccept ((i + pre.length) % 2 ^ 32) bad ≠ 0) :
    set_answers_go slot engineAccept i (pre ++ bad :: rest) =
      ((List.enumFrom i pre).map (fun p => (p.1 % 2 ^ 32, p.2)),
       .error ((SessionHolder.last_error slot).getD (Error.fatal "error setting answer"))) := by
  induction pre generalizing i with
  | nil =>
    simp only [List.nil_append, List.length_nil, Nat.add_zero] at hbad ⊢
    simp only [set_answers_go, CString.new, hbadNul, if_neg (Bool.false_ne_true),
      if_pos hbad, List.enumFrom, List.map_nil]
    cases hslot : SessionHolder.last_error slot <;> simp [hslot]
  | cons a pre' ih =>
    have ha := hpre (i, a) (by simp [List.enumFrom])
    have hpre' : ∀ p ∈ List.enumFrom (i + 1) pre',
        hasNul p.2 = false ∧ engineAccept (p.1 % 2 ^ 32) p.2 = 0 := by
      intro p hp
      exact hpre p (by simp [List.enumFrom, hp])
    have hbad' : engineAccept ((i + 1 + pre'.length) % 2 ^ 32) bad ≠ 0 := by
      have heq : i + 1 + pre'.length = i + (a :: pre').length := by
        simp [List.length_cons]
        omega
      rw [heq]
      exact hbad
    rw [List.cons_append,
      set_answers_go_cons_accepted slot engineAccept i a (pre' ++ bad :: rest) ha.1 ha.2,
      ih (i + 1) hpre' hbad']
    simp [List.enumFrom]

/-- When the engine accepts the answers of `pre` (all NUL-free) and the next
answer holds an embedded NUL, `CString::new(answer)?` aborts the loop with
the construction-time error before any further engine call; the answers of
`pre` remain set. -/
theorem set_answers_go_nul_answer (slot : SessionErrorSlot)
    (engineAccept : Nat → String → Int) (pre : List String) (bad : String)
    (rest : List String) (i : Nat)
    (hpre : ∀ p ∈ List.enumFrom i pre,
      hasNul p.2 = false ∧ engineAccept (p.1 % 2 ^ 32) p.2 = 0)
    (hbadNul : hasNul bad = true) :
    set_answers_go slot engineAccept i (pre ++ bad :: rest) =
      ((List.enumFrom i pre).map (fun p => (p.1 % 2 ^ 32, p.2)), .error nulError) := by
  induction pre generalizing i with
  | nil =>
    simp [set_answers_go, CString.new, hbadNul, List.enumFrom]
  | cons a pre' ih =>
    have ha := hpre (i, a) (by simp [List.enumFrom])
    have hpre' : ∀ p ∈ List.enumFrom (i + 1) pre',
        hasNul p.2 = false ∧ engineAccept (p.1 % 2 ^ 32) p.2 = 0 := by
      intro p hp
      exact hpre p (by simp [List.enumFrom, hp])
    rw [List.cons_append,
      set_answers_go_cons_accepted slot engineAccept i a (pre' ++ bad :: rest) ha.1 ha.2,
      ih (i + 1) hpre']
    simp [List.enumFrom]

/-- C10: answer submission is positional and non-atomic.  An empty answer
list returns success with nothing sent, whatever the engine oracle would
answer.  When every answer is NUL-free and accepted, the answers are sent
one at a time in enumeration order, the engine receiving each counter value
wrapped by the `idx as u32` cast (`% 2 ^ 32`), with no prompt count
consulted anywhere; whenever the list fits in a `u32` (every index below
`2 ^ 32`) these are literally the indices `0..n` in order.  And when the
engine accepts the answers of `pre` but rejects the following answer, the
operation stops with an error (the last-error slot's error, or the generic
fatal) while exactly the answers of `pre` — the positions before the
rejection — remain set. -/
theorem set_answers_positional (slot : SessionErrorSlot)
    (engineAccept : Nat → String → Int) (answers pre : List String) (bad : String)
    (rest : List String) :
    (Session.userauth_keyboard_interactive_set_answers slot engineAccept [] =
      ([], .ok ())) ∧
    ((∀ p ∈ List.enumFrom 0 answers,
        hasNul p.2 = false ∧ engineAccept (p.1 % 2 ^ 32) p.2 = 0) →
      Session.userauth_keyboard_interactive_set_answers slot engineAccept answers =
        ((List.enumFrom 0 answers).map (fun p => (p.1 % 2 ^ 32, p.2)), .ok ()) ∧
      (answers.length ≤ 2 ^ 32 →
        Session.userauth_keyboard_interactive_set_answers slot engineAccept answers =
          (List.enumFrom 0 answers, .ok ()))) ∧
    ((∀ p ∈ List.enumFrom 0 pre,
        hasNul p.2 = false ∧ engineAccept (p.1 % 2 ^ 32) p.2 = 0) →
     hasNul bad = false →
     engineAccept (pre.length % 2 ^ 32) bad ≠ 0 →
      Session.userauth_keyboard_interactive_set_answers slot engineAccept
          (pre ++ bad :: rest) =
        ((List.enumFrom 0 pre).map (fun p => (p.1 % 2 ^ 32, p.2)),
         .error ((SessionHolder.last_error slot).getD
           (Error.fatal "error setting answer")))) := by
  refine ⟨rfl, fun h => ⟨?_, fun hlen => ?_⟩, fun hpre hbadNul hbad => ?_⟩
  · exact set_answers_go_all_accepted slot engineAccept answers 0 h
  · have hgo := set_answers_go_all_accepted slot engineAccept answers 0 h
    have hmap : (List.enumFrom 0 answers).map (fun p => (p.1 % 2 ^ 32, p.2)) =
        List.enumFrom 0 answers := by
      have hcongr : ∀ p ∈ List.enumFrom 0 answers,
          (fun p : Nat × String => (p.1 % 2 ^ 32, p.2)) p = id p := by
        intro p hp
        have hlt := enumFrom_fst_lt answers 0 p hp
        rw [Nat.zero_add] at hlt
        cases p with
        | mk x y =>
          have hx : x % 2 ^ 32 = x :=
            Nat.mod_eq_of_lt (Nat.lt_of_lt_of_le hlt hlen)
          show (x % 2 ^ 32, y) = (x, y)
          rw [hx]
      rw [List.map_congr_left hcongr, List.map_id]
    calc Session.userauth_keyboard_interactive_set_answers slot engineAccept answers
        = ((List.enumFrom 0 answers).map (fun p => (p.1 % 2 ^ 32, p.2)), .ok ()) := hgo
      _ = (List.enumFrom 0 answers, .ok ()) := by rw [hmap]
  · exact set_answers_go_rejected slot engineAccept pre bad rest 0 hpre hbadNul
      (by simpa using hbad)

/-- Witness for C10: with a clean error slot and an engine that accepts only
index 0, submitting `["a", "b"]` sets answer 0, fails at index 1 with the
generic fatal, and leaves `(0, "a")` set. -/
theorem set_answers_positional_witness :
    Session.userauth_keyboard_interactive_set_answers ⟨0, none⟩
        (fun i _ => if i = 0 then 0 else 1) ["a", "b"] =
      ([(0, "a")], .error (Error.fatal "error setting answer")) := by
  have h := (set_answers_positional ⟨0, none⟩ (fun i _ => if i = 0 then 0 else 1)
    [] ["a"] "b" []).2.2 (by decide) (by decide) (by decide)
  simpa [List.enumFrom, SessionHolder.last_error] using h

/-- C8 as amended: a string with an embedded NUL raises the construction-time
`Fatal` error for the required-string paths — the `Hostname`, `BindAddress`
and `AddIdentity` options, and every keyboard-interactive answer (the loop
aborts with the construction error as soon as it reaches the NUL-carrying
answer); but for the optional-string parameters (`User`, `SshDir`,
`KnownHosts`, and — via `opt_str_to_cstring` — usernames, passwords,
sub-methods and bind addresses of the auth and forwarding calls) it is
silently collapsed to absence, so the engine's default is substituted with no
error. -/
theorem set_option_embedded_nul_behavior (s : String) (h : hasNul s = true) :
    Session.set_option_marshaled (SshOption.Hostname s) = .error nulError ∧
    Session.set_option_marshaled (SshOption.BindAddress s) = .error nulError ∧
    Session.set_option_marshaled (SshOption.AddIdentity s) = .error nulError ∧
    Session.set_option_marshaled (SshOption.User (some s)) = .ok EngineArg.nullArg ∧
    Session.set_option_marshaled (SshOption.SshDir (some s)) = .ok EngineArg.nullArg ∧
    Session.set_option_marshaled (SshOption.KnownHosts (some s)) = .ok EngineArg.nullArg ∧
    opt_str_to_cstring (some s) = none ∧
    (∀ (slot : SessionErrorSlot) (engineAccept : Nat → String → Int) (rest : List String),
      Session.userauth_keyboard_interactive_set_answers slot engineAccept (s :: rest) =
        ([], .error nulError)) := by
  refine ⟨?_, ?_, ?_, ?_, ?_, ?_, ?_, fun slot engineAccept rest => ?_⟩
  · simp [Session.set_option_marshaled, CString.new, h]
  · simp [Session.set_option_marshaled, CString.new, h]
  · simp [Session.set_option_marshaled, CString.new, h]
  · simp [Session.set_option_marshaled, opt_str_to_cstring, CString.new, h, Except.toOption]
  · simp [Session.set_option_marshaled, opt_str_to_cstring, CString.new, h, Except.toOption]
  · simp [Session.set_option_marshaled, opt_str_to_cstring, CString.new, h, Except.toOption]
  · simp [opt_str_to_cstring, CString.new, h, Except.toOption]
  · have hgo := set_answers_go_nul_answer slot engineAccept [] s rest 0
      (by simp [List.enumFrom]) h
    simpa [Session.userauth_keyboard_interactive_set_answers, List.enumFrom] using hgo

/-- Witness for the amended C8 at the concrete embedded-NUL string. -/
theorem set_option_embedded_nul_behavior_witness :
    Session.set_option_marshaled (SshOption.Hostname "a\x00b") = .error nulError ∧
    Session.set_option_marshaled (SshOption.User (some "a\x00b")) = .ok EngineArg.nullArg ∧
    Session.userauth_keyboard_interactive_set_answers ⟨0, none⟩ (fun _ _ => 0)
        ["a\x00b"] = ([], .error nulError) :=
  ⟨(set_option_embedded_nul_behavior "a\x00b" (by decide)).1,
   (set_option_embedded_nul_behavior "a\x00b" (by decide)).2.2.2.1,
   (set_option_embedded_nul_behavior "a\x00b" (by decide)).2.2.2.2.2.2.2
     ⟨0, none⟩ (fun _ _ => 0) []⟩
